import Mathlib

/-!
Verification of the mcp-google-sheets MCP adapter.

This file gives a shallow embedding, in Lean, of the pure logic of the
repository: the Google Sheets URL parser (src/utils/url-parser.js), the
column-letter conversion and the cell-search scan (src/tools/search.tools.js),
the sheet tools (get-sheet-by-gid, get-sheet-preview), the gid resolution of
the client (src/client/sheets-client.js), the token cache of the standalone
GoogleSheetsClient, and the success/error response envelopes of the client
operations and value handlers.  Network effects are made explicit: a function
that the code obtains over HTTP becomes a parameter holding the outcome of
that HTTP call, and the embeddings count how many such calls the code issues.
-/

namespace McpSheets

/-! ### Column letters (search.tools.js, columnIndexToLetter) -/

/-- Embeds `columnIndexToLetter` of search.tools.js.  The JS loop
`while (index >= 0) { letter = chr(index % 26 + 65) + letter;
index = floor(index / 26) - 1 }` runs its body once and then repeats exactly
when the updated index is still nonnegative, i.e. when the old index was at
least 26; on a natural-number index the loop therefore is this recursion. -/
def columnIndexToLetter (index : Nat) : String :=
  if index < 26 then
    (Char.ofNat (index % 26 + 65)).toString
  else
    columnIndexToLetter (index / 26 - 1) ++ (Char.ofNat (index % 26 + 65)).toString
termination_by index
decreasing_by
  have hd : index / 26 < index := Nat.div_lt_self (by omega) (by omega)
  omega

/-- Spec-side definition (from the spec's words): one digit of the standard
spreadsheet column-letter parse, A = 1, ..., Z = 26. -/
def letterStep (acc : Nat) (c : Char) : Nat := acc * 26 + (c.toNat - 64)

/-- Spec-side definition (from the spec's words): the standard spreadsheet
column-letter parse, reading the letters as bijective base-26 digits and
subtracting one to land on the zero-based column index. -/
def lettersToIndex (s : String) : Nat := (s.data.foldl letterStep 0) - 1

/-! ### URL parser (url-parser.js) -/

/-- Result of `parseSpreadsheetInput` / `parseGoogleSheetsUrl`. -/
structure ParsedInput where
  spreadsheetId : String
  gid : Option String
deriving Repr, DecidableEq

/-- Decidable equality for `Except`, used to evaluate the embeddings of the
fallible operations on concrete inputs. -/
instance instDecEqExcept {ε α : Type} [DecidableEq ε] [DecidableEq α] :
    DecidableEq (Except ε α)
  | .ok a, .ok b => decidable_of_iff (a = b) (by simp)
  | .ok _, .error _ => isFalse (by simp)
  | .error _, .ok _ => isFalse (by simp)
  | .error e, .error f => decidable_of_iff (e = f) (by simp)

/-- Character class `[a-zA-Z0-9-_]` of the spreadsheet-id capture group. -/
def isIdChar (c : Char) : Bool := c.isAlphanum || c = '-' || c = '_'

/-- Matches a literal pattern at the head of the character list, returning the
remainder on success. -/
def stripLit : List Char → List Char → Option (List Char)
  | [], l => some l
  | _ :: _, [] => none
  | p :: ps, c :: cs => if p = c then stripLit ps cs else none

/-- Embeds JS `String.match` for a regex of the shape `lit(K+)` with `lit` a
literal and `K` a character class: scan positions left to right; at each
position require the literal followed by at least one `K` character, and
capture the maximal `K` run.  A position where the literal matches but no `K`
character follows fails, and scanning resumes at the next position. -/
def findCapture (pat : List Char) (good : Char → Bool) : List Char → Option (List Char)
  | [] => none
  | c :: t =>
    match stripLit pat (c :: t) with
    | some rest =>
      let run := rest.takeWhile good
      if run = [] then findCapture pat good t else some run
    | none => findCapture pat good t

/-- Embeds JS `String.prototype.startsWith` (is the first argument's second
string a prefix of it): character-by-character comparison. -/
def isPrefixChars : List Char → List Char → Bool
  | [], _ => true
  | _ :: _, [] => false
  | p :: ps, c :: cs => p = c && isPrefixChars ps cs

/-- JS `s.startsWith(p)` on strings. -/
def strStartsWith (s p : String) : Bool := isPrefixChars p.data s.data

/-- Hex digit value, as accepted by percent-decoding. -/
def hexVal (c : Char) : Option Nat :=
  if c.isDigit then some (c.toNat - 48)
  else if 'a' ≤ c && c ≤ 'f' then some (c.toNat - 87)
  else if 'A' ≤ c && c ≤ 'F' then some (c.toNat - 55)
  else none

/-- The application/x-www-form-urlencoded decoding used by `URLSearchParams`:
`+` becomes a space and `%XX` becomes the character with code `XX`; a `%` not
followed by two hex digits stays literal.  (Multi-byte UTF-8 percent sequences
are not recombined; the gids of this system are plain ASCII digits.) -/
def formDecode : List Char → List Char
  | [] => []
  | '+' :: t => ' ' :: formDecode t
  | '%' :: a :: b :: t =>
    match hexVal a, hexVal b with
    | some ha, some hb => Char.ofNat (16 * ha + hb) :: formDecode t
    | _, _ => '%' :: formDecode (a :: b :: t)
  | '%' :: rest => '%' :: formDecode rest
  | c :: t => c :: formDecode t

/-- The query component that `new URL(url)` exposes for an http(s) URL: the
part of the string strictly between the first `?` preceding the fragment and
the fragment (which starts at the first `#`); `none` when there is no `?`
before the fragment. -/
def urlQuery (url : List Char) : Option (List Char) :=
  let beforeHash := url.takeWhile (fun c => c != '#')
  match beforeHash.dropWhile (fun c => c != '?') with
  | [] => none
  | _ :: qs => some qs

/-- Splits a character list on a separator (the pieces between separators, in
order, empty pieces included). -/
def splitOnChar (sep : Char) : List Char → List (List Char)
  | [] => [[]]
  | c :: t =>
    let r := splitOnChar sep t
    if c = sep then [] :: r
    else
      match r with
      | [] => [[c]]
      | h :: rs => (c :: h) :: rs

/-- One `name=value` pair of a query string, both sides form-decoded; a pair
without `=` has value the empty string. -/
def paramPair (p : List Char) : String × String :=
  let nm := p.takeWhile (fun c => c != '=')
  let rest := p.dropWhile (fun c => c != '=')
  let v := match rest with
    | [] => []
    | _ :: t => t
  (String.mk (formDecode nm), String.mk (formDecode v))

/-- Embeds `new URL(url).searchParams.get(name)`: split the query on `&`,
drop empty segments, decode each pair, and return the value of the first pair
whose decoded name matches; `null` when the query or the pair is absent. -/
def searchParamsGet (url : String) (name : String) : Option String :=
  match urlQuery url.data with
  | none => none
  | some q =>
    let pairs := (splitOnChar '&' q).filter (fun p => !p.isEmpty)
    ((pairs.map paramPair).find? (fun pr => pr.1 == name)).map (fun pr => pr.2)

/-- Embeds `url.match(/#gid=(\d+)/)`, the fragment fallback of the gid
resolution: the first occurrence of the literal `#gid=` followed by at least
one digit anywhere in the URL string, capturing the maximal digit run. -/
def findHashGid (url : List Char) : Option String :=
  (findCapture ("#gid=".data) Char.isDigit url).map String.mk

/-- The host component of an http(s) URL: everything after the scheme up to
the first `/`, `?` or `#`.  `new URL` rejects a hostless http(s) URL. -/
def urlHost (url : String) : List Char :=
  let rest :=
    if strStartsWith url "https://" then url.data.drop 8
    else if strStartsWith url "http://" then url.data.drop 7
    else url.data
  rest.takeWhile (fun c => c != '/' && c != '?' && c != '#')

/-- Embeds `parseGoogleSheetsUrl` of url-parser.js.  A missing
`/spreadsheets/d/{id}` segment throws (modelled as `.error`); `new URL(url)`
throws on a hostless URL; the gid is the truthy `gid` query parameter when
present, else the first `#gid=<digits>` fragment match, else null. -/
def parseGoogleSheetsUrl (url : String) : Except String ParsedInput :=
  match findCapture ("/spreadsheets/d/".data) isIdChar url.data with
  | none => .error "Invalid Google Sheets URL"
  | some idRun =>
    if urlHost url = [] then .error "Invalid URL"
    else
      let spreadsheetId := String.mk idRun
      let gidQ : Option String :=
        match searchParamsGet url "gid" with
        | some g => if g = "" then none else some g
        | none => none
      let gid : Option String :=
        match gidQ with
        | some g => some g
        | none => findHashGid url.data
      .ok ⟨spreadsheetId, gid⟩

/-- Embeds `parseSpreadsheetInput` of url-parser.js: an empty (falsy) input
throws; an input with an http(s) scheme goes through the URL parser; anything
else is returned unchanged as a bare spreadsheet id with a null gid. -/
def parseSpreadsheetInput (input : String) : Except String ParsedInput :=
  if input = "" then .error "Spreadsheet ID or URL is required"
  else if strStartsWith input "http://" || strStartsWith input "https://" then
    parseGoogleSheetsUrl input
  else
    .ok ⟨input, none⟩

/-! ### Cell search (search.tools.js, search-values) -/

/-- Match type of the search tools; the default in the handler is contains. -/
inductive MatchType where
  | exact
  | contains
deriving Repr, DecidableEq

/-- Embeds JS `String.prototype.toLowerCase` (ASCII case folding; the cell
values and search texts of this system are ASCII). -/
def toLowerStr (s : String) : String := String.mk (s.data.map Char.toLower)

/-- Embeds JS `String.prototype.includes` on character lists (is `pat` a
contiguous substring of the second argument): scans for `pat` at every
position. -/
def containsSubstr (pat : List Char) : List Char → Bool
  | [] => isPrefixChars pat []
  | c :: t => isPrefixChars pat (c :: t) || containsSubstr pat t

/-- The per-cell comparison of search-values: case-folded equality for
`exact`, case-folded substring containment for `contains`.  Both strings are
already lower-cased by the caller, as in the source. -/
def isMatch (matchType : MatchType) (searchLower cellLower : String) : Bool :=
  match matchType with
  | .exact => cellLower == searchLower
  | .contains => containsSubstr searchLower.data cellLower.data

/-- One reported match of search-values: cell reference, cell value, 1-based
row number and column letter. -/
structure SearchMatch where
  cellRef : String
  value : String
  row : Nat
  col : String
deriving Repr, DecidableEq

/-- Embeds the inner `row.forEach((cell, colIdx) => ...)` of search-values:
walks the cells of one row left to right, pushing a match record onto the
accumulator for every matching cell.  Cells are strings, so the source's
`String(cell || '')` is the cell itself. -/
def scanRowCells (searchLower : String) (matchType : MatchType) (rowIdx : Nat) :
    Nat → List String → List SearchMatch → List SearchMatch
  | _, [], acc => acc
  | colIdx, cell :: cells, acc =>
    let cellLower := toLowerStr cell
    let acc :=
      if isMatch matchType searchLower cellLower then
        let colLetter := columnIndexToLetter colIdx
        acc ++ [⟨colLetter ++ toString (rowIdx + 1), cell, rowIdx + 1, colLetter⟩]
      else acc
    scanRowCells searchLower matchType rowIdx (colIdx + 1) cells acc

/-- Embeds the outer `result.values.forEach((row, rowIdx) => ...)` of
search-values.  After each row the source checks
`if (matches.length >= maxResults) return;` — that `return` only ends the
current row callback, whose body is already complete, so in either case the
iteration continues with the next row and the very same accumulator; the two
branches below are therefore the same, mirroring that the check stops
nothing. -/
def scanRows (searchLower : String) (matchType : MatchType) (maxResults : Nat) :
    Nat → List (List String) → List SearchMatch → List SearchMatch
  | _, [], acc => acc
  | rowIdx, row :: rows, acc =>
    let acc := scanRowCells searchLower matchType rowIdx 0 row acc
    if acc.length ≥ maxResults then
      scanRows searchLower matchType maxResults (rowIdx + 1) rows acc
    else
      scanRows searchLower matchType maxResults (rowIdx + 1) rows acc

/-- What the search-values handler reports: the listed matches come from
`matches.slice(0, maxResults)` and the announced count from
`matches.length`. -/
structure SearchReport where
  reported : List SearchMatch
  totalCount : Nat
deriving Repr, DecidableEq

/-- Embeds the search-values tool on an already fetched grid: lower-case the
search text, run the scan with an empty accumulator, report the first
`maxResults` matches and the full match count. -/
def searchValuesReport (values : List (List String)) (searchText : String)
    (matchType : MatchType) (maxResults : Nat) : SearchReport :=
  let searchLower := toLowerStr searchText
  let found := scanRows searchLower matchType maxResults 0 values []
  ⟨found.take maxResults, found.length⟩

/-- Spec-side definition (from the spec's words): the matches of one row in
left-to-right order, without any accumulator or cap. -/
def rowMatches (searchLower : String) (matchType : MatchType) (rowIdx : Nat) :
    Nat → List String → List SearchMatch
  | _, [] => []
  | colIdx, cell :: cells =>
    (if isMatch matchType searchLower (toLowerStr cell) then
      [⟨columnIndexToLetter colIdx ++ toString (rowIdx + 1), cell, rowIdx + 1,
        columnIndexToLetter colIdx⟩]
     else []) ++ rowMatches searchLower matchType rowIdx (colIdx + 1) cells

/-- Spec-side definition (from the spec's words): every match of the grid in
row-major order. -/
def gridMatches (searchLower : String) (matchType : MatchType) (rowIdx : Nat) :
    List (List String) → List SearchMatch
  | [] => []
  | row :: rows =>
    rowMatches searchLower matchType rowIdx 0 row ++
      gridMatches searchLower matchType (rowIdx + 1) rows

/-! ### Sheets, gid resolution (sheets-client.js) and the get-sheet-by-gid
tool (sheet tools) -/

/-- The sheet properties this system reads. -/
structure SheetProperties where
  sheetId : Nat
  title : String
  index : Nat
deriving Repr, DecidableEq

/-- A sheet of a spreadsheet. -/
structure Sheet where
  properties : SheetProperties
deriving Repr, DecidableEq

/-- Spreadsheet metadata: the ordered list of sheets. -/
structure Spreadsheet where
  sheets : List Sheet
deriving Repr, DecidableEq

/-- Embeds `getSheetByGid` of sheets-client.js on already fetched metadata:
find the first sheet whose numeric `sheetId`, rendered as a string, equals the
gid string (`s.properties?.sheetId?.toString() === gid.toString()`); null when
no sheet matches. -/
def getSheetByGid (spreadsheet : Spreadsheet) (gid : String) : Option Sheet :=
  spreadsheet.sheets.find? (fun s => toString s.properties.sheetId == gid)

/-- JS truthiness of an optional string: absent and the empty string are
falsy. -/
def strTruthy : Option String → Bool
  | none => false
  | some s => s != ""

/-- Embeds `a || b` on optional strings: `a` when truthy, otherwise `b`. -/
def jsOrStr (a b : Option String) : Option String := if strTruthy a then a else b

/-- Embeds the gid fallback of the get-sheet-by-gid handler:
`if (!gid && args.gid) gid = args.gid`. -/
def resolveGid (parsedGid argsGid : Option String) : Option String :=
  if !strTruthy parsedGid && strTruthy argsGid then argsGid else parsedGid

/-- Arguments of the get-sheet-by-gid tool; every field is optional in its
schema. -/
structure GidArgs where
  spreadsheetId : Option String
  url : Option String
  gid : Option String
deriving Repr, DecidableEq

/-- Which response the get-sheet-by-gid tool produced (the formatted text of
each branch is abstracted to its identity and payload). -/
inductive GidToolOutcome where
  | missingId
  | missingGid
  | parseFailed (msg : String)
  | fetchFailed (msg : String)
  | sheetNotFound (gid : String)
  | found (sheet : Sheet)
deriving Repr, DecidableEq

/-- Result of one get-sheet-by-gid call: the outcome, the `isError` flag of
the returned MCP result (thrown errors are converted to an error-flagged
result by the wrapper in index.js), and how many Sheets client calls were
issued. -/
structure GidToolResult where
  outcome : GidToolOutcome
  isError : Bool
  clientCalls : Nat
deriving Repr, DecidableEq

/-- Embeds the get-sheet-by-gid branch of the sheet tools handler.  `fetched`
holds the outcome the Sheets client would deliver if consulted (its metadata
fetch succeeding with a spreadsheet, or failing); `clientCalls` counts the
`sheetsClient.getSheetByGid` calls actually made. -/
def handleGetSheetByGid (args : GidArgs) (fetched : Except String Spreadsheet) :
    GidToolResult :=
  let inputId := jsOrStr args.spreadsheetId args.url
  if !strTruthy inputId then ⟨.missingId, true, 0⟩
  else
    match parseSpreadsheetInput (inputId.getD "") with
    | .error msg => ⟨.parseFailed msg, true, 0⟩
    | .ok parsed =>
      let gid := resolveGid parsed.gid args.gid
      if !strTruthy gid then ⟨.missingGid, true, 0⟩
      else
        match fetched with
        | .error e => ⟨.fetchFailed e, true, 1⟩
        | .ok spreadsheet =>
          match getSheetByGid spreadsheet (gid.getD "") with
          | none => ⟨.sheetNotFound (gid.getD ""), true, 1⟩
          | some sheet => ⟨.found sheet, false, 1⟩

/-! ### Token cache (standalone GoogleSheetsClient.getAccessToken) -/

/-- JS truthiness of an optional number: absent and zero are falsy. -/
def numTruthy : Option Int → Bool
  | none => false
  | some e => e != 0

/-- The token cache fields of the client: `this.accessToken` and
`this.tokenExpiry` (milliseconds since epoch), both null before the first
exchange. -/
structure TokenState where
  accessToken : Option String
  tokenExpiry : Option Int
deriving Repr, DecidableEq

/-- The cache-hit condition of `getAccessToken`:
`this.accessToken && this.tokenExpiry && Date.now() < this.tokenExpiry - 300000`. -/
def cacheValid (st : TokenState) (now : Int) : Bool :=
  strTruthy st.accessToken && numTruthy st.tokenExpiry &&
    decide (now < st.tokenExpiry.getD 0 - 300000)

/-- Result of one `getAccessToken` call: the resolved token or the rejection,
the updated cache fields, and how many token-endpoint exchanges ran. -/
structure TokenResult where
  result : Except String String
  state : TokenState
  exchanges : Nat
deriving Repr, DecidableEq

/-- Embeds `getAccessToken`.  `exchange` holds the outcome the token endpoint
would deliver if called: `access_token` and `expires_in` (seconds).  On a
cache hit the cached token is returned untouched with no exchange; otherwise
the exchange runs, and on status 200 the new token and its expiry instant
`Date.now() + expires_in * 1000` are stored, while a non-200 status rejects
without touching the cache. -/
def getAccessToken (st : TokenState) (now : Int)
    (exchange : Except String (String × Int)) : TokenResult :=
  if cacheValid st now then
    ⟨.ok (st.accessToken.getD ""), st, 0⟩
  else
    match exchange with
    | .ok (tok, expiresIn) => ⟨.ok tok, ⟨some tok, some (now + expiresIn * 1000)⟩, 1⟩
    | .error e => ⟨.error ("Token request failed: " ++ e), st, 1⟩

/-! ### Response envelopes (standalone client operations and handlers) -/

/-- The `MCPResponse` object shape: a success flag and the two optional
payload fields.  Nothing in the shape itself prevents both or neither payload
from being set; the envelope theorems show the operations never do that. -/
structure MCPResponse (α : Type) where
  success : Bool
  data : Option α
  error : Option String
deriving Repr, DecidableEq

/-- The invariant claimed for every envelope: exactly one of data and error is
carried. -/
def exactlyOne {α : Type} (r : MCPResponse α) : Prop :=
  (r.data.isSome = true ∧ r.error = none) ∨ (r.data = none ∧ r.error.isSome = true)

/-- Embeds the try/catch shape shared by `getSpreadsheet`, `getValues`,
`batchGetValues` and `updateValues` of the standalone client: a successful
HTTP call yields `{success: true, data}`, a thrown non-2xx error is caught and
yields `{success: false, error}`.  `http` holds the outcome of the single
underlying HTTP request. -/
def clientEnvelope {α : Type} (http : Except String α) : MCPResponse α :=
  match http with
  | .ok d => ⟨true, some d, none⟩
  | .error e => ⟨false, none, some e⟩

/-- Embeds `appendValues` of the standalone client, which builds its envelopes
inline: status 200 resolves `{success: true, data}`, any other status or a
request error resolves `{success: false, error}`. -/
def appendValuesOp {α : Type} (http : Except String α) : MCPResponse α :=
  match http with
  | .ok d => ⟨true, some d, none⟩
  | .error e => ⟨false, none, some e⟩

/-- The per-sheet projection `listSheets` applies to the metadata. -/
structure SheetSummary where
  title : String
  sheetId : Nat
  index : Nat
deriving Repr, DecidableEq

/-- Embeds `listSheets` of the standalone client: delegate to
`getSpreadsheet`; pass its failure envelope through unchanged; on success
project `sheets[].properties` into summaries. -/
def listSheetsOp (http : Except String Spreadsheet) : MCPResponse (List SheetSummary) :=
  let result := clientEnvelope http
  if result.success = false then ⟨false, none, result.error⟩
  else
    ⟨true,
      some (((result.data.getD ⟨[]⟩).sheets).map fun s =>
        ⟨s.properties.title, s.properties.sheetId, s.properties.index⟩),
      none⟩

/-- Arguments of the value handlers (snake_case tool arguments); a missing
field is `none` and JS truthiness applies to the strings. -/
structure ValueArgs where
  spreadsheet_id : Option String
  range : Option String
  values : Option (List (List String))
  ranges : Option (List String)
deriving Repr, DecidableEq

/-- Embeds `valueHandlers.getValues`: validate `spreadsheet_id` and `range`,
then delegate to the client; `http` holds the outcome of the values fetch the
client would perform. -/
def vhGetValues (args : ValueArgs) (http : Except String (List (List String))) :
    MCPResponse (List (List String)) :=
  if !strTruthy args.spreadsheet_id then ⟨false, none, some "spreadsheet_id is required"⟩
  else if !strTruthy args.range then ⟨false, none, some "range is required"⟩
  else clientEnvelope http

/-- Embeds `valueHandlers.batchGetValues`: validate `spreadsheet_id` and a
non-empty `ranges` array, then delegate. -/
def vhBatchGetValues (args : ValueArgs) (http : Except String (List (List (List String)))) :
    MCPResponse (List (List (List String))) :=
  if !strTruthy args.spreadsheet_id then ⟨false, none, some "spreadsheet_id is required"⟩
  else
    match args.ranges with
    | none => ⟨false, none, some "ranges is required and must be a non-empty array"⟩
    | some rs =>
      if rs.length = 0 then ⟨false, none, some "ranges is required and must be a non-empty array"⟩
      else clientEnvelope http

/-- Embeds `valueHandlers.updateValues`: validate `spreadsheet_id`, `range`
and the presence of `values`, then delegate. -/
def vhUpdateValues (args : ValueArgs) (http : Except String Nat) : MCPResponse Nat :=
  if !strTruthy args.spreadsheet_id then ⟨false, none, some "spreadsheet_id is required"⟩
  else if !strTruthy args.range then ⟨false, none, some "range is required"⟩
  else
    match args.values with
    | none => ⟨false, none, some "values is required and must be a 2D array"⟩
    | some _ => clientEnvelope http

/-- Embeds `valueHandlers.appendValues`: the same validations, then the
append operation. -/
def vhAppendValues (args : ValueArgs) (http : Except String Nat) : MCPResponse Nat :=
  if !strTruthy args.spreadsheet_id then ⟨false, none, some "spreadsheet_id is required"⟩
  else if !strTruthy args.range then ⟨false, none, some "range is required"⟩
  else
    match args.values with
    | none => ⟨false, none, some "values is required and must be a 2D array"⟩
    | some _ => appendValuesOp http

/-! ### Sheet preview row cap (sheet tools, get-sheet-preview) -/

/-- Embeds `args.numRows || 10`: an absent or zero row count falls back to the
default of 10. -/
def jsOrNum (a : Option Int) (b : Int) : Int :=
  match a with
  | some x => if x = 0 then b else x
  | none => b

/-- Embeds `Math.min(args.numRows || 10, 50)` of get-sheet-preview. -/
def previewNumRows (numRows : Option Int) : Int := min (jsOrNum numRows 10) 50

/-- The range string get-sheet-preview requests from the sheet:
`sheetName!A1:ZZnumRows`. -/
def previewRange (sheetName : String) (numRows : Option Int) : String :=
  sheetName ++ "!A1:ZZ" ++ toString (previewNumRows numRows)

/-! ## Theorems -/

/-! ### Helper lemmas for the column-letter conversion -/

/-- Unfolding equation of `columnIndexToLetter`. -/
theorem columnIndexToLetter_unfold (index : Nat) :
    columnIndexToLetter index =
      if index < 26 then (Char.ofNat (index % 26 + 65)).toString
      else columnIndexToLetter (index / 26 - 1) ++ (Char.ofNat (index % 26 + 65)).toString := by
  rw [columnIndexToLetter]

/-- Folding the digit step from an arbitrary accumulator shifts it by a power
of 26. -/
theorem foldl_letterStep_shift (l : List Char) : ∀ a : Nat,
    l.foldl letterStep a = a * 26 ^ l.length + l.foldl letterStep 0 := by
  induction l with
  | nil => intro a; simp
  | cons c t ih =>
    intro a
    simp only [List.foldl_cons, List.length_cons]
    rw [ih (letterStep a c), ih (letterStep 0 c)]
    simp only [letterStep, Nat.zero_mul, Nat.zero_add]
    ring

/-- The character codes produced by the conversion round-trip through
`Char.ofNat`. -/
theorem letterCharVal : ∀ d : Nat, d < 26 → (Char.ofNat (d + 65)).toNat = d + 65 := by
  decide

/-- The letters of `columnIndexToLetter n` parse, as bijective base-26 digits,
to `n + 1`. -/
theorem foldl_columnIndexToLetter : ∀ n : Nat,
    (columnIndexToLetter n).data.foldl letterStep 0 = n + 1 := by
  intro n
  induction n using Nat.strong_induction_on with
  | _ n ih =>
    rw [columnIndexToLetter_unfold]
    by_cases h : n < 26
    · rw [if_pos h]
      have hd : (Char.ofNat (n % 26 + 65)).toString.data = [Char.ofNat (n % 26 + 65)] := rfl
      rw [hd]
      simp only [List.foldl_cons, List.foldl_nil, letterStep]
      rw [letterCharVal (n % 26) (Nat.mod_lt _ (by omega))]
      have hm : n % 26 = n := Nat.mod_eq_of_lt h
      omega
    · rw [if_neg h]
      have hlt : n / 26 - 1 < n := by
        have := Nat.div_lt_self (show 0 < n by omega) (show 1 < 26 by omega)
        omega
      have hdata : (columnIndexToLetter (n / 26 - 1) ++ (Char.ofNat (n % 26 + 65)).toString).data
          = (columnIndexToLetter (n / 26 - 1)).data ++ [Char.ofNat (n % 26 + 65)] := by
        rw [String.data_append]; rfl
      rw [hdata, List.foldl_append, ih _ hlt]
      simp only [List.foldl_cons, List.foldl_nil, letterStep]
      rw [letterCharVal (n % 26) (Nat.mod_lt _ (by omega))]
      have hdm := Nat.div_add_mod n 26
      have h1 : 1 ≤ n / 26 := (Nat.one_le_div_iff (by omega)).mpr (by omega)
      omega

/-- Concrete value: column 0 is A. -/
theorem columnLetter_zero : columnIndexToLetter 0 = "A" := by
  rw [columnIndexToLetter_unfold]; decide

/-- Concrete value: column 1 is B. -/
theorem columnLetter_one : columnIndexToLetter 1 = "B" := by
  rw [columnIndexToLetter_unfold]; decide

/-- Concrete value: column 25 is Z. -/
theorem columnLetter_25 : columnIndexToLetter 25 = "Z" := by
  rw [columnIndexToLetter_unfold]; decide

/-- Concrete value: column 26 is AA. -/
theorem columnLetter_26 : columnIndexToLetter 26 = "AA" := by
  rw [columnIndexToLetter_unfold]
  norm_num
  rw [columnIndexToLetter_unfold]
  decide

/-- Concrete value: column 701 is ZZ. -/
theorem columnLetter_701 : columnIndexToLetter 701 = "ZZ" := by
  rw [columnIndexToLetter_unfold]
  norm_num
  rw [columnIndexToLetter_unfold]
  decide

/-- Concrete value: column 702 is AAA. -/
theorem columnLetter_702 : columnIndexToLetter 702 = "AAA" := by
  rw [columnIndexToLetter_unfold]
  norm_num
  rw [columnIndexToLetter_unfold]
  norm_num
  rw [columnIndexToLetter_unfold]
  decide

/-- C2: for every natural-number column index, `columnIndexToLetter` converts
under bijective base-26 numbering and is a left inverse target of the standard
spreadsheet column-letter parse (`lettersToIndex`), with the expected concrete
values `0 ↦ A`, `25 ↦ Z`, `26 ↦ AA`, `701 ↦ ZZ`, `702 ↦ AAA`; the conversion
is a total Lean function, which settles that the loop terminates on every
input. -/
theorem columnIndexToLetter_bijective_base26 :
    (∀ n : Nat, lettersToIndex (columnIndexToLetter n) = n) ∧
    columnIndexToLetter 0 = "A" ∧ columnIndexToLetter 25 = "Z" ∧
    columnIndexToLetter 26 = "AA" ∧ columnIndexToLetter 701 = "ZZ" ∧
    columnIndexToLetter 702 = "AAA" := by
  refine ⟨fun n => ?_, columnLetter_zero, columnLetter_25, columnLetter_26,
    columnLetter_701, columnLetter_702⟩
  unfold lettersToIndex
  rw [foldl_columnIndexToLetter]
  omega

/-- C7: a non-empty input without an http(s) scheme is returned unchanged as
the spreadsheet id, with a null gid. -/
theorem parseSpreadsheetInput_bare_id (input : String)
    (hne : input ≠ "")
    (h1 : strStartsWith input "http://" = false)
    (h2 : strStartsWith input "https://" = false) :
    parseSpreadsheetInput input = .ok ⟨input, none⟩ := by
  unfold parseSpreadsheetInput
  rw [if_neg hne]
  simp [h1, h2]

/-- Witness for C7 at a concrete bare id. -/
theorem parseSpreadsheetInput_bare_id_witness :
    ("1FmDx17Gm2aEa0" : String) ≠ "" ∧
    parseSpreadsheetInput "1FmDx17Gm2aEa0" = .ok ⟨"1FmDx17Gm2aEa0", none⟩ :=
  ⟨by decide, parseSpreadsheetInput_bare_id "1FmDx17Gm2aEa0" (by decide) (by decide) (by decide)⟩

/-- C10: the get-sheet-preview row count is `min(numRows, 50)` for a supplied
non-zero count, defaults to 10 when the argument is absent or 0, and never
exceeds 50. -/
theorem getSheetPreview_row_cap :
    (∀ n : Int, n ≠ 0 → previewNumRows (some n) = min n 50) ∧
    previewNumRows none = 10 ∧
    previewNumRows (some 0) = 10 ∧
    (∀ v : Option Int, previewNumRows v ≤ 50) := by
  refine ⟨fun n hn => ?_, by decide, by decide, fun v => ?_⟩
  · simp [previewNumRows, jsOrNum, hn]
  · exact min_le_right _ _

/-- Witness for C10 at the concrete count 7. -/
theorem getSheetPreview_row_cap_witness :
    (7 : Int) ≠ 0 ∧ previewNumRows (some 7) = min 7 50 :=
  ⟨by decide, getSheetPreview_row_cap.1 7 (by decide)⟩

/-- C9: every modelled client operation and value handler returns an envelope
carrying exactly one of data and error, for every input and every upstream
outcome. -/
theorem response_envelopes_exactly_one :
    (∀ (α : Type) (http : Except String α), exactlyOne (clientEnvelope http)) ∧
    (∀ (α : Type) (http : Except String α), exactlyOne (appendValuesOp http)) ∧
    (∀ http : Except String Spreadsheet, exactlyOne (listSheetsOp http)) ∧
    (∀ (args : ValueArgs) (http : Except String (List (List String))),
      exactlyOne (vhGetValues args http)) ∧
    (∀ (args : ValueArgs) (http : Except String (List (List (List String)))),
      exactlyOne (vhBatchGetValues args http)) ∧
    (∀ (args : ValueArgs) (http : Except String Nat),
      exactlyOne (vhUpdateValues args http)) ∧
    (∀ (args : ValueArgs) (http : Except String Nat),
      exactlyOne (vhAppendValues args http)) := by
  have hc : ∀ (α : Type) (http : Except String α), exactlyOne (clientEnvelope http) := by
    intro α http
    cases http <;> simp [clientEnvelope, exactlyOne]
  have ha : ∀ (α : Type) (http : Except String α), exactlyOne (appendValuesOp http) := by
    intro α http
    cases http <;> simp [appendValuesOp, exactlyOne]
  refine ⟨hc, ha, fun http => ?_, fun args http => ?_, fun args http => ?_,
    fun args http => ?_, fun args http => ?_⟩
  · cases http <;> simp [listSheetsOp, clientEnvelope, exactlyOne]
  · unfold vhGetValues
    split
    · simp [exactlyOne]
    · split
      · simp [exactlyOne]
      · exact hc _ http
  · unfold vhBatchGetValues
    split
    · simp [exactlyOne]
    · split
      · simp [exactlyOne]
      · split
        · simp [exactlyOne]
        · exact hc _ http
  · unfold vhUpdateValues
    split
    · simp [exactlyOne]
    · split
      · simp [exactlyOne]
      · split
        · simp [exactlyOne]
        · exact hc _ http
  · unfold vhAppendValues
    split
    · simp [exactlyOne]
    · split
      · simp [exactlyOne]
      · split
        · simp [exactlyOne]
        · exact ha _ http

/-! ### The search scan -/

/-- The inner row scan appends exactly the row's matches, in order, after the
accumulator. -/
theorem scanRowCells_eq (sl : String) (mt : MatchType) (ri : Nat) :
    ∀ (cells : List String) (ci : Nat) (acc : List SearchMatch),
      scanRowCells sl mt ri ci cells acc = acc ++ rowMatches sl mt ri ci cells := by
  intro cells
  induction cells with
  | nil => intro ci acc; simp [scanRowCells, rowMatches]
  | cons cell cs ih =>
    intro ci acc
    simp only [scanRowCells, rowMatches]
    rw [ih]
    split <;> simp

/-- The outer scan appends every match of the grid, in row-major order, after
the accumulator: the max-results check between rows stops nothing. -/
theorem scanRows_eq (sl : String) (mt : MatchType) (mr : Nat) :
    ∀ (rows : List (List String)) (ri : Nat) (acc : List SearchMatch),
      scanRows sl mt mr ri rows acc = acc ++ gridMatches sl mt ri rows := by
  intro rows
  induction rows with
  | nil => intro ri acc; simp [scanRows, gridMatches]
  | cons row rs ih =>
    intro ri acc
    simp only [scanRows, gridMatches]
    rw [ite_self, ih, scanRowCells_eq]
    simp

/-- C1: for every fetched grid, search text, match type and positive
maxResults, the reported list is the first `maxResults` matches of the grid in
row-major order (hence at most `maxResults` long), while the scan itself
visits every row and the announced total equals the number of matches in the
whole grid — the cap is soft, bounding only what is reported. -/
theorem searchValues_soft_cap (values : List (List String)) (searchText : String)
    (matchType : MatchType) (maxResults : Nat) (_hpos : 0 < maxResults) :
    (searchValuesReport values searchText matchType maxResults).reported =
      (gridMatches (toLowerStr searchText) matchType 0 values).take maxResults ∧
    (searchValuesReport values searchText matchType maxResults).reported.length ≤ maxResults ∧
    (searchValuesReport values searchText matchType maxResults).totalCount =
      (gridMatches (toLowerStr searchText) matchType 0 values).length := by
  refine ⟨?_, ?_, ?_⟩
  · simp only [searchValuesReport, scanRows_eq, List.nil_append]
  · simp only [searchValuesReport, scanRows_eq, List.nil_append, List.length_take]
    exact min_le_left _ _
  · simp only [searchValuesReport, scanRows_eq, List.nil_append]

/-- Witness for C1: a grid with three matches, a cap of one, the single
reported match and the full count of three. -/
theorem searchValues_soft_cap_witness :
    0 < 1 ∧
    ((searchValuesReport [["a", "a"], ["a", "b"]] "a" .exact 1).reported =
        (gridMatches (toLowerStr "a") .exact 0 [["a", "a"], ["a", "b"]]).take 1 ∧
      (searchValuesReport [["a", "a"], ["a", "b"]] "a" .exact 1).reported.length ≤ 1 ∧
      (searchValuesReport [["a", "a"], ["a", "b"]] "a" .exact 1).totalCount =
        (gridMatches (toLowerStr "a") .exact 0 [["a", "a"], ["a", "b"]]).length) :=
  ⟨by decide, searchValues_soft_cap [["a", "a"], ["a", "b"]] "a" .exact 1 (by decide)⟩

/-- C4: on the grid `[["Name","Score"],["Alice","95"]]`, searching for
"Alice" with exact matching and a cap of 10 reports exactly one match, at cell
A2 with value "Alice", row 2 and column A; the comparison is case-insensitive
(the lower-case search text finds the same cell) and `contains` matching is
substring containment (the inner fragment "lic" finds the same cell). -/
theorem searchValues_alice_example :
    searchValuesReport [["Name", "Score"], ["Alice", "95"]] "Alice" .exact 10 =
      ⟨[⟨"A2", "Alice", 2, "A"⟩], 1⟩ ∧
    searchValuesReport [["Name", "Score"], ["Alice", "95"]] "alice" .exact 10 =
      ⟨[⟨"A2", "Alice", 2, "A"⟩], 1⟩ ∧
    searchValuesReport [["Name", "Score"], ["Alice", "95"]] "lic" .contains 10 =
      ⟨[⟨"A2", "Alice", 2, "A"⟩], 1⟩ := by
  refine ⟨?_, ?_, ?_⟩ <;>
  · simp only [searchValuesReport, scanRows_eq, List.nil_append, gridMatches, rowMatches,
      Nat.zero_add, columnLetter_zero, columnLetter_one]
    decide

/-! ### gid precedence of the URL parser -/

/-- C3: for an http(s) URL the parser accepts, a truthy `gid` query parameter
is returned as the gid whatever the fragment says (the query gid wins); only
when the query parameter is absent (or empty, hence falsy) is the
`#gid=<digits>` fragment consulted, and the gid is null when that also yields
nothing. -/
theorem parseSpreadsheetInput_gid_precedence (url : String) (r : ParsedInput)
    (hscheme : (strStartsWith url "http://" || strStartsWith url "https://") = true)
    (hok : parseSpreadsheetInput url = .ok r) :
    (∀ q, searchParamsGet url "gid" = some q → q ≠ "" → r.gid = some q) ∧
    ((searchParamsGet url "gid" = none ∨ searchParamsGet url "gid" = some "") →
      r.gid = findHashGid url.data) := by
  have hne : url ≠ "" := by
    intro h
    subst h
    exact absurd hscheme (by decide)
  unfold parseSpreadsheetInput at hok
  rw [if_neg hne, if_pos hscheme] at hok
  unfold parseGoogleSheetsUrl at hok
  cases hfc : findCapture ("/spreadsheets/d/".data) isIdChar url.data with
  | none => rw [hfc] at hok; exact absurd hok (by simp)
  | some idRun =>
    rw [hfc] at hok
    dsimp only at hok
    by_cases hh : urlHost url = []
    · rw [if_pos hh] at hok; exact absurd hok (by simp)
    · rw [if_neg hh] at hok
      injection hok with hr
      subst hr
      constructor
      · intro q hq hqne
        simp [hq, hqne]
      · rintro (h | h) <;> simp [h]

/-- Witness for C3: a URL carrying both a query gid and a differing fragment
gid resolves to the query gid, and one carrying only a fragment gid resolves
to the fragment match. -/
theorem parseSpreadsheetInput_gid_precedence_witness :
    parseSpreadsheetInput
        "https://docs.google.com/spreadsheets/d/1FmDx/edit?gid=1850828774#gid=999" =
      .ok ⟨"1FmDx", some "1850828774"⟩ ∧
    (⟨"1FmDx", some "1850828774"⟩ : ParsedInput).gid = some "1850828774" ∧
    (⟨"1FmDx", some "999"⟩ : ParsedInput).gid =
      findHashGid "https://docs.google.com/spreadsheets/d/1FmDx/edit#gid=999".data :=
  ⟨by decide,
   (parseSpreadsheetInput_gid_precedence
      "https://docs.google.com/spreadsheets/d/1FmDx/edit?gid=1850828774#gid=999"
      ⟨"1FmDx", some "1850828774"⟩ (by decide) (by decide)).1 "1850828774" (by decide)
      (by decide),
   (parseSpreadsheetInput_gid_precedence
      "https://docs.google.com/spreadsheets/d/1FmDx/edit#gid=999"
      ⟨"1FmDx", some "999"⟩ (by decide) (by decide)).2 (Or.inl (by decide))⟩

/-! ### get-sheet-by-gid validation and gid resolution -/

/-- C5: when neither `spreadsheetId` nor `url` is supplied (truthy), the
get-sheet-by-gid handler returns the error-flagged missing-id result with
zero client calls, whatever the client would have answered; and when an
identifier parses but no gid is obtained from the URL or the `gid` argument,
it returns the error-flagged missing-gid result, again before any client
call. -/
theorem getSheetByGid_tool_validation (args : GidArgs)
    (fetched : Except String Spreadsheet) :
    (strTruthy (jsOrStr args.spreadsheetId args.url) = false →
      handleGetSheetByGid args fetched = ⟨.missingId, true, 0⟩) ∧
    (∀ parsed : ParsedInput,
      strTruthy (jsOrStr args.spreadsheetId args.url) = true →
      parseSpreadsheetInput ((jsOrStr args.spreadsheetId args.url).getD "") = .ok parsed →
      strTruthy (resolveGid parsed.gid args.gid) = false →
      handleGetSheetByGid args fetched = ⟨.missingGid, true, 0⟩) := by
  constructor
  · intro h
    simp [handleGetSheetByGid, h]
  · intro parsed ht hparse hgid
    simp [handleGetSheetByGid, ht, hparse, hgid]

/-- Witness for C5: empty arguments yield the missing-id failure and a bare id
without any gid yields the missing-gid failure, both with zero client calls
even though the modelled client is failing. -/
theorem getSheetByGid_tool_validation_witness :
    handleGetSheetByGid ⟨none, none, none⟩ (.error "offline") = ⟨.missingId, true, 0⟩ ∧
    handleGetSheetByGid ⟨some "abc", none, none⟩ (.error "offline") =
      ⟨.missingGid, true, 0⟩ :=
  ⟨(getSheetByGid_tool_validation ⟨none, none, none⟩ (.error "offline")).1 (by decide),
   (getSheetByGid_tool_validation ⟨some "abc", none, none⟩ (.error "offline")).2
      ⟨"abc", none⟩ (by decide) (by decide) (by decide)⟩

/-- C6: when no sheet of the fetched spreadsheet has a `sheetId` whose string
form equals the gid, `getSheetByGid` returns null rather than throwing, and
the handler surfaces it as the error-flagged sheet-not-found result; when some
sheet matches (compared as strings), a matching sheet of the spreadsheet is
returned. -/
theorem getSheetByGid_not_found (ss : Spreadsheet) (gid : String) :
    ((∀ s ∈ ss.sheets, toString s.properties.sheetId ≠ gid) →
      getSheetByGid ss gid = none ∧
      (∀ (args : GidArgs) (parsed : ParsedInput),
        strTruthy (jsOrStr args.spreadsheetId args.url) = true →
        parseSpreadsheetInput ((jsOrStr args.spreadsheetId args.url).getD "") = .ok parsed →
        resolveGid parsed.gid args.gid = some gid →
        gid ≠ "" →
        handleGetSheetByGid args (.ok ss) = ⟨.sheetNotFound gid, true, 1⟩)) ∧
    ((∃ s ∈ ss.sheets, toString s.properties.sheetId = gid) →
      ∃ s, getSheetByGid ss gid = some s ∧ s ∈ ss.sheets ∧
        toString s.properties.sheetId = gid) := by
  constructor
  · intro hno
    have hnone : getSheetByGid ss gid = none := by
      unfold getSheetByGid
      rw [List.find?_eq_none]
      intro s hs
      simp only [beq_iff_eq]
      exact hno s hs
    refine ⟨hnone, ?_⟩
    intro args parsed ht hparse hres hgne
    have hst : strTruthy (some gid) = true := by
      simp [strTruthy, hgne]
    simp [handleGetSheetByGid, ht, hparse, hres, hst, hnone]
  · intro hex
    have hsome : (ss.sheets.find? (fun s => toString s.properties.sheetId == gid)).isSome := by
      rw [List.find?_isSome]
      obtain ⟨s, hs, hp⟩ := hex
      exact ⟨s, hs, by simp [hp]⟩
    obtain ⟨s, hfind⟩ := Option.isSome_iff_exists.mp hsome
    refine ⟨s, hfind, List.mem_of_find?_eq_some hfind, ?_⟩
    have hp := List.find?_some hfind
    simpa using hp

/-- Witness for C6: on a one-sheet spreadsheet with sheetId 7, gid "9" is not
found (client null, handler error-flagged not-found with one client call) and
gid "7" returns the sheet. -/
theorem getSheetByGid_not_found_witness :
    getSheetByGid ⟨[⟨⟨7, "S7", 0⟩⟩]⟩ "9" = none ∧
    handleGetSheetByGid ⟨some "abc", none, some "9"⟩ (.ok ⟨[⟨⟨7, "S7", 0⟩⟩]⟩) =
      ⟨.sheetNotFound "9", true, 1⟩ ∧
    (∃ s, getSheetByGid ⟨[⟨⟨7, "S7", 0⟩⟩]⟩ "7" = some s ∧
      s ∈ (⟨[⟨⟨7, "S7", 0⟩⟩]⟩ : Spreadsheet).sheets ∧
      toString s.properties.sheetId = "7") :=
  ⟨((getSheetByGid_not_found ⟨[⟨⟨7, "S7", 0⟩⟩]⟩ "9").1 (by decide)).1,
   ((getSheetByGid_not_found ⟨[⟨⟨7, "S7", 0⟩⟩]⟩ "9").1 (by decide)).2
      ⟨some "abc", none, some "9"⟩ ⟨"abc", none⟩ (by decide) (by decide) (by decide)
      (by decide),
   (getSheetByGid_not_found ⟨[⟨⟨7, "S7", 0⟩⟩]⟩ "7").2 (by decide)⟩

/-! ### Token cache -/

/-- C8: the cached bearer token is returned, with no token-endpoint exchange
and no state change, exactly when a (truthy) token and expiry are cached and
the current time is more than the 300000 ms safety margin before the recorded
expiry; in every other case one exchange runs, and on success the new token
and its expiry instant `now + expires_in * 1000` are stored. -/
theorem getAccessToken_cache_policy (st : TokenState) (now : Int)
    (exchange : Except String (String × Int)) :
    (cacheValid st now = true ↔
      ∃ tok texp, st.accessToken = some tok ∧ tok ≠ "" ∧
        st.tokenExpiry = some texp ∧ texp ≠ 0 ∧ now < texp - 300000) ∧
    (cacheValid st now = true →
      getAccessToken st now exchange = ⟨.ok (st.accessToken.getD ""), st, 0⟩) ∧
    (cacheValid st now = false →
      (getAccessToken st now exchange).exchanges = 1 ∧
      ∀ tok expiresIn, exchange = .ok (tok, expiresIn) →
        getAccessToken st now exchange =
          ⟨.ok tok, ⟨some tok, some (now + expiresIn * 1000)⟩, 1⟩) := by
  refine ⟨?_, ?_, ?_⟩
  · unfold cacheValid strTruthy numTruthy
    cases hA : st.accessToken with
    | none => simp
    | some tok =>
      cases hE : st.tokenExpiry with
      | none => simp
      | some texp => simp [Option.getD, and_assoc]
  · intro h
    unfold getAccessToken
    rw [if_pos h]
  · intro h
    have hcond : ¬ (cacheValid st now = true) := by simp [h]
    unfold getAccessToken
    rw [if_neg hcond]
    constructor
    · cases exchange with
      | ok p => cases p; rfl
      | error e => rfl
    · intro tok expiresIn hex
      subst hex
      rfl

/-- Witness for C8: at 500000 ms with expiry 1000000 ms the margin holds and
the cached token is reused with no exchange; at 800000 ms the margin fails and
a successful exchange installs the new token with expiry 800000 + 3600000. -/
theorem getAccessToken_cache_policy_witness :
    getAccessToken ⟨some "tok", some 1000000⟩ 500000 (.error "offline") =
      ⟨.ok ((some "tok").getD ""), ⟨some "tok", some 1000000⟩, 0⟩ ∧
    getAccessToken ⟨some "tok", some 1000000⟩ 800000 (.ok ("new", 3600)) =
      ⟨.ok "new", ⟨some "new", some (800000 + 3600 * 1000)⟩, 1⟩ :=
  ⟨(getAccessToken_cache_policy ⟨some "tok", some 1000000⟩ 500000 (.error "offline")).2.1
      (by decide),
   ((getAccessToken_cache_policy ⟨some "tok", some 1000000⟩ 800000
        (.ok ("new", 3600))).2.2 (by decide)).2 "new" 3600 rfl⟩

end McpSheets
